import Mathlib

/-!
Shallow Lean embedding of the RcSwitchReceiver interrupt-time decoder
(src/internal/RcSwitch.cpp, RcSwitch.hpp), of the compile-time timing-spec
construction (src/internal/ProtocolTimingSpec.hpp, Protocol.hpp) and of the
pulse analyzer's synch-pair validation (src/internal/PulseAnalyzer2.hpp).

Machine integers are modelled as Nat with explicit reduction modulo 2^w at
the operations where the C++ type can wrap (uint32_t, size_t of width w).
C++ enums whose enumerators carry explicit integer values are modelled by
those integer values, because the source compares them by value.
-/

namespace RcSwitch

/-- 2^32, the modulus of `uint32_t` arithmetic. -/
def UINT32_MOD : Nat := 4294967296

/-- From RcSwitch.hpp: capacity of the protocol candidates stack. -/
def MAX_PROTOCOL_CANDIDATES : Nat := 7

/-- From RcSwitch.hpp: minimum number of data bits for a valid message packet. -/
def MIN_MSG_PACKET_BITS : Nat := 6

/-- From RcSwitch.hpp: capacity of the message packet bit stack. -/
def MAX_MSG_PACKET_BITS : Nat := 32

/-- From RcSwitch.hpp: pulses per data bit. -/
def DATA_PULSES_PER_BIT : Nat := 2

/-- From RcSwitch.cpp `struct TimeRange`: a half-open duration window. -/
structure TimeRange where
  lowerBound : Nat
  upperBound : Nat
deriving DecidableEq, Repr

/-- Enumerator `TimeRange::IS_WITHIN = 0` (C++ enum value). -/
def TimeRange.IS_WITHIN : Int := 0

/-- Enumerator `TimeRange::TOO_SHORT = -1` (C++ enum value). -/
def TimeRange.TOO_SHORT : Int := -1

/-- Enumerator `TimeRange::TOO_LONG = -1` (C++ enum value, as written in the
source: it collides with `TOO_SHORT`). -/
def TimeRange.TOO_LONG : Int := -1

/-- `TimeRange::compare` from RcSwitch.cpp lines 110-114: returns the enum
value for the classification of `value` against the half-open window. -/
def TimeRange.compare (r : TimeRange) (value : Nat) : Int :=
  if value < r.lowerBound then TimeRange.TOO_SHORT
  else if value ≥ r.upperBound then TimeRange.TOO_LONG
  else TimeRange.IS_WITHIN

/-- `PULSE_LEVEL` from RcSwitch.hpp. -/
inductive PULSE_LEVEL where
  | UNKNOWN
  | LO
  | HI
deriving DecidableEq, Repr

/-- `PULSE_TYPE` from RcSwitch.hpp. -/
inductive PULSE_TYPE where
  | UNKNOWN
  | SYCH_PULSE
  | SYNCH_FIRST_PULSE
  | SYNCH_SECOND_PULSE
  | DATA_LOGICAL_0
  | DATA_LOGICAL_1
deriving DecidableEq, Repr

/-- `struct PulseTypes` from RcSwitch.hpp. -/
structure PulseTypes where
  mPulseTypeSynch : PULSE_TYPE
  mPulseTypeData : PULSE_TYPE
deriving DecidableEq, Repr

/-- `struct Pulse` from RcSwitch.hpp. -/
structure Pulse where
  mMicroSecDuration : Nat
  mPulseLevel : PULSE_LEVEL
deriving DecidableEq, Repr

instance : Inhabited Pulse := ⟨⟨0, PULSE_LEVEL.UNKNOWN⟩⟩

/-- `struct PulsePairTiming` from RcSwitch.cpp. -/
structure PulsePairTiming where
  durationLowLevelPulse : TimeRange
  durationHighLevelPulse : TimeRange
deriving DecidableEq, Repr

/-- `struct Protocol` from RcSwitch.cpp (the data members). Whether a row is
an inverse-level protocol is decided in the source by pointer membership in
`inverseLevelProtocolsTable`; in the embedding the table membership is passed
as a `Bool` argument where needed. -/
structure Protocol where
  protocolNumber : Nat
  synchronizationPulsePair : PulsePairTiming
  logical0PulsePair : PulsePairTiming
  logical1PulsePair : PulsePairTiming
deriving DecidableEq, Repr

instance : Inhabited Protocol :=
  ⟨⟨0, ⟨⟨0, 0⟩, ⟨0, 0⟩⟩, ⟨⟨0, 0⟩, ⟨0, 0⟩⟩, ⟨⟨0, 0⟩, ⟨0, 0⟩⟩⟩⟩

/-- `normalLevelProtocolsTable` from RcSwitch.cpp lines 140-153. -/
def normalLevelProtocolsTable : List Protocol := [
  ⟨7, ⟨⟨7440, 11160⟩, ⟨240, 360⟩⟩, ⟨⟨720, 1080⟩, ⟨120, 180⟩⟩, ⟨⟨120, 180⟩, ⟨720, 1080⟩⟩⟩,
  ⟨1, ⟨⟨8680, 13020⟩, ⟨280, 420⟩⟩, ⟨⟨840, 1260⟩, ⟨280, 420⟩⟩, ⟨⟨280, 420⟩, ⟨840, 1260⟩⟩⟩,
  ⟨4, ⟨⟨1824, 2736⟩, ⟨304, 456⟩⟩, ⟨⟨912, 1368⟩, ⟨304, 456⟩⟩, ⟨⟨304, 456⟩, ⟨912, 1368⟩⟩⟩,
  ⟨8, ⟨⟨20800, 31200⟩, ⟨480, 720⟩⟩, ⟨⟨2560, 3840⟩, ⟨1120, 1680⟩⟩, ⟨⟨2560, 3840⟩, ⟨480, 720⟩⟩⟩,
  ⟨2, ⟨⟨5200, 7800⟩, ⟨520, 780⟩⟩, ⟨⟨1040, 1560⟩, ⟨520, 780⟩⟩, ⟨⟨520, 780⟩, ⟨1040, 1560⟩⟩⟩,
  ⟨5, ⟨⟨5600, 8400⟩, ⟨2400, 3600⟩⟩, ⟨⟨800, 1200⟩, ⟨400, 600⟩⟩, ⟨⟨400, 600⟩, ⟨800, 1200⟩⟩⟩,
  ⟨3, ⟨⟨5680, 8520⟩, ⟨2400, 3600⟩⟩, ⟨⟨880, 1320⟩, ⟨320, 480⟩⟩, ⟨⟨480, 720⟩, ⟨720, 1080⟩⟩⟩]

/-- `inverseLevelProtocolsTable` from RcSwitch.cpp lines 156-167. -/
def inverseLevelProtocolsTable : List Protocol := [
  ⟨13, ⟨⟨216, 324⟩, ⟨7776, 11664⟩⟩, ⟨⟨216, 324⟩, ⟨432, 648⟩⟩, ⟨⟨432, 648⟩, ⟨216, 324⟩⟩⟩,
  ⟨11, ⟨⟨256, 384⟩, ⟨9216, 13824⟩⟩, ⟨⟨256, 384⟩, ⟨512, 768⟩⟩, ⟨⟨512, 768⟩, ⟨256, 384⟩⟩⟩,
  ⟨10, ⟨⟨292, 438⟩, ⟨5256, 7884⟩⟩, ⟨⟨876, 1314⟩, ⟨292, 438⟩⟩, ⟨⟨292, 438⟩, ⟨876, 1314⟩⟩⟩,
  ⟨6, ⟨⟨360, 540⟩, ⟨8280, 12420⟩⟩, ⟨⟨360, 540⟩, ⟨720, 1080⟩⟩, ⟨⟨720, 1080⟩, ⟨360, 540⟩⟩⟩,
  ⟨9, ⟨⟨1120, 1680⟩, ⟨20800, 31200⟩⟩, ⟨⟨2560, 3840⟩, ⟨1120, 1680⟩⟩, ⟨⟨2560, 3840⟩, ⟨480, 720⟩⟩⟩]

/-- `Protocol::pulseToPulseTypes` from RcSwitch.cpp lines 187-253.
`inverse` stands for `isInverseLevelProtocol()` (pointer-range membership in
the source). Enum comparisons are by the numeric values of the enumerators,
exactly as the C++ compiler resolves them; in particular
`synchCompare == TimeRange::TOO_LONG` compares against the value -1. -/
def Protocol.pulseToPulseTypes (prot : Protocol) (inverse : Bool) (pulse : Pulse) : PulseTypes :=
  match pulse.mPulseLevel with
  | PULSE_LEVEL.LO =>
    let synchCompare := prot.synchronizationPulsePair.durationLowLevelPulse.compare pulse.mMicroSecDuration
    let synchType :=
      if inverse then
        if synchCompare = TimeRange.IS_WITHIN ∨ synchCompare = TimeRange.TOO_LONG then
          PULSE_TYPE.SYNCH_FIRST_PULSE
        else PULSE_TYPE.UNKNOWN
      else
        if synchCompare = TimeRange.IS_WITHIN then PULSE_TYPE.SYNCH_SECOND_PULSE
        else PULSE_TYPE.UNKNOWN
    let log0Compare := prot.logical0PulsePair.durationLowLevelPulse.compare pulse.mMicroSecDuration
    let dataType :=
      if log0Compare = TimeRange.IS_WITHIN then PULSE_TYPE.DATA_LOGICAL_0
      else
        let log1Compare := prot.logical1PulsePair.durationLowLevelPulse.compare pulse.mMicroSecDuration
        if log1Compare = TimeRange.IS_WITHIN then PULSE_TYPE.DATA_LOGICAL_1
        else PULSE_TYPE.UNKNOWN
    ⟨synchType, dataType⟩
  | PULSE_LEVEL.HI =>
    let synchCompare := prot.synchronizationPulsePair.durationHighLevelPulse.compare pulse.mMicroSecDuration
    let synchType :=
      if inverse then
        if synchCompare = TimeRange.IS_WITHIN then PULSE_TYPE.SYNCH_SECOND_PULSE
        else PULSE_TYPE.UNKNOWN
      else
        if synchCompare = TimeRange.IS_WITHIN then PULSE_TYPE.SYNCH_FIRST_PULSE
        else PULSE_TYPE.UNKNOWN
    let log0Compare := prot.logical0PulsePair.durationHighLevelPulse.compare pulse.mMicroSecDuration
    let dataType :=
      if log0Compare = TimeRange.IS_WITHIN then PULSE_TYPE.DATA_LOGICAL_0
      else
        let log1Compare := prot.logical1PulsePair.durationHighLevelPulse.compare pulse.mMicroSecDuration
        if log1Compare = TimeRange.IS_WITHIN then PULSE_TYPE.DATA_LOGICAL_1
        else PULSE_TYPE.UNKNOWN
    ⟨synchType, dataType⟩
  | PULSE_LEVEL.UNKNOWN => ⟨PULSE_TYPE.UNKNOWN, PULSE_TYPE.UNKNOWN⟩

/-- `DATA_BIT` from RcSwitch.hpp. -/
inductive DATA_BIT where
  | UNKNOWN
  | LOGICAL_0
  | LOGICAL_1
deriving DecidableEq, Repr

/-- `PROTOCOL_GROUP_ID` from RcSwitch.hpp. -/
inductive PROTOCOL_GROUP_ID where
  | UNKNOWN_PROTOCOL
  | NORMAL_LEVEL_PROTOCOLS
  | INVERSE_LEVEL_PROTOCOLS
deriving DecidableEq, Repr

/-- `StackBuffer<T, CAPACITY>` from RcSwitch.hpp: the stored elements (in
push order, index 0 at the head) and the overflow counter. -/
structure StackBuffer (α : Type) where
  mData : List α
  mOverflow : Nat
deriving DecidableEq, Repr

/-- `StackBuffer::push` from RcSwitch.hpp lines 218-224 (via `beyondTop` and
`selectNext`): appends while size < capacity, otherwise increments the
overflow counter and drops the element. -/
def StackBuffer.push (cap : Nat) (s : StackBuffer α) (value : α) : StackBuffer α :=
  if s.mData.length < cap then { s with mData := s.mData ++ [value] }
  else { s with mOverflow := s.mOverflow + 1 }

/-- `StackBuffer::reset`: size to zero and overflow counter cleared. -/
def StackBuffer.resetBuf (_s : StackBuffer α) : StackBuffer α := ⟨[], 0⟩

/-- `StackBuffer::overflowCount`. -/
def StackBuffer.overflowCount (s : StackBuffer α) : Nat := s.mOverflow

/-- `MessagePacket` from RcSwitch.hpp: a `StackBuffer<DATA_BIT, MAX_MSG_PACKET_BITS>`. -/
def MessagePacket := StackBuffer DATA_BIT

/-- `ProtocolCandidates` from RcSwitch.hpp: a
`StackBuffer<PROTOCOL_CANDIDATE, MAX_PROTOCOL_CANDIDATES>` plus the protocol
group tag. -/
structure ProtocolCandidates where
  stack : StackBuffer Nat
  mProtocolGroupId : PROTOCOL_GROUP_ID
deriving DecidableEq, Repr

/-- `ProtocolCandidates::reset`. -/
def ProtocolCandidates.reset (_pc : ProtocolCandidates) : ProtocolCandidates :=
  ⟨⟨[], 0⟩, PROTOCOL_GROUP_ID.UNKNOWN_PROTOCOL⟩

/-- `ProtocolCandidates::push` (capacity `MAX_PROTOCOL_CANDIDATES`). -/
def ProtocolCandidates.push (pc : ProtocolCandidates) (i : Nat) : ProtocolCandidates :=
  { pc with stack := pc.stack.push MAX_PROTOCOL_CANDIDATES i }

/-- `ProtocolCandidates::setProtocolGroup`. -/
def ProtocolCandidates.setProtocolGroup (pc : ProtocolCandidates) (g : PROTOCOL_GROUP_ID) : ProtocolCandidates :=
  { pc with mProtocolGroupId := g }

/-- The scan of `collectNormalLevelProtocolCandidates` (RcSwitch.cpp lines
265-290) expressed as the sequence of table indices it pushes, in push
order. `i` is the index of the head of `table` within the full table. The
early exit `return` at `pulse_0.duration < sync.durationHighLevelPulse.lowerBound`
and the push condition are verbatim from the source. -/
def collectNormalScan (d0 d1 : Nat) : Nat → List Protocol → List Nat
  | _, [] => []
  | i, prot :: rest =>
    if d0 < prot.synchronizationPulsePair.durationHighLevelPulse.lowerBound then []
    else
      if d0 < prot.synchronizationPulsePair.durationHighLevelPulse.upperBound ∧
         d1 ≥ prot.synchronizationPulsePair.durationLowLevelPulse.lowerBound ∧
         d1 < prot.synchronizationPulsePair.durationLowLevelPulse.upperBound then
        i :: collectNormalScan d0 d1 (i + 1) rest
      else collectNormalScan d0 d1 (i + 1) rest

/-- The scan of `collectInverseLevelProtocolCandidates` (RcSwitch.cpp lines
292-313): early exit at `pulse_0.duration < sync.durationLowLevelPulse.lowerBound`;
the push condition checks only pulse 1 against the high-level (sync B) range
(there is no upper-bound check on pulse 0 in the source). -/
def collectInverseScan (d0 d1 : Nat) : Nat → List Protocol → List Nat
  | _, [] => []
  | i, prot :: rest =>
    if d0 < prot.synchronizationPulsePair.durationLowLevelPulse.lowerBound then []
    else
      if d1 ≥ prot.synchronizationPulsePair.durationHighLevelPulse.lowerBound ∧
         d1 < prot.synchronizationPulsePair.durationHighLevelPulse.upperBound then
        i :: collectInverseScan d0 d1 (i + 1) rest
      else collectInverseScan d0 d1 (i + 1) rest

/-- `collectNormalLevelProtocolCandidates`: pushes the scanned indices onto
the candidate stack. -/
def collectNormalLevelProtocolCandidates (pc : ProtocolCandidates) (pulse_0 pulse_1 : Pulse) : ProtocolCandidates :=
  (collectNormalScan pulse_0.mMicroSecDuration pulse_1.mMicroSecDuration 0
    normalLevelProtocolsTable).foldl ProtocolCandidates.push pc

/-- `collectInverseLevelProtocolCandidates`: pushes the scanned indices onto
the candidate stack. -/
def collectInverseLevelProtocolCandidates (pc : ProtocolCandidates) (pulse_0 pulse_1 : Pulse) : ProtocolCandidates :=
  (collectInverseScan pulse_0.mMicroSecDuration pulse_1.mMicroSecDuration 0
    inverseLevelProtocolsTable).foldl ProtocolCandidates.push pc

/-- `Receiver::collectProtocolCandidates` from RcSwitch.cpp lines 325-342:
dispatch on the level of `pulse_0` when the two levels differ; the
`RCSWITCH_ASSERT` calls compile to nothing in release builds. -/
def collectProtocolCandidatesFn (pc : ProtocolCandidates) (pulse_0 pulse_1 : Pulse) : ProtocolCandidates :=
  if pulse_0.mPulseLevel ≠ pulse_1.mPulseLevel then
    if pulse_0.mPulseLevel = PULSE_LEVEL.HI then
      collectNormalLevelProtocolCandidates
        (pc.setProtocolGroup PROTOCOL_GROUP_ID.NORMAL_LEVEL_PROTOCOLS) pulse_0 pulse_1
    else if pulse_0.mPulseLevel = PULSE_LEVEL.LO then
      collectInverseLevelProtocolCandidates
        (pc.setProtocolGroup PROTOCOL_GROUP_ID.INVERSE_LEVEL_PROTOCOLS) pulse_0 pulse_1
    else pc
  else pc

/-- `getProtocolTable` from RcSwitch.cpp lines 256-263, paired with the
inverse-level flag that `Protocol::isInverseLevelProtocol` computes by
pointer membership for rows of that table. The `UNKNOWN_PROTOCOL` group is
never looked up by the source (it would index out of bounds); the embedding
totalizes it with the empty table. -/
def getProtocolTable : PROTOCOL_GROUP_ID → List Protocol × Bool
  | PROTOCOL_GROUP_ID.NORMAL_LEVEL_PROTOCOLS => (normalLevelProtocolsTable, false)
  | PROTOCOL_GROUP_ID.INVERSE_LEVEL_PROTOCOLS => (inverseLevelProtocolsTable, true)
  | PROTOCOL_GROUP_ID.UNKNOWN_PROTOCOL => ([], false)

/-- The sync-pair test inside `Receiver::analyzePulsePair` (RcSwitch.cpp
lines 359-363): second pulse classifies as `SYNCH_SECOND_PULSE` and first
pulse as `SYNCH_FIRST_PULSE`. -/
def pairIsSynch (prot : Protocol) (inverse : Bool) (firstPulse secondPulse : Pulse) : Bool :=
  (prot.pulseToPulseTypes inverse secondPulse).mPulseTypeSynch = PULSE_TYPE.SYNCH_SECOND_PULSE ∧
  (prot.pulseToPulseTypes inverse firstPulse).mPulseTypeSynch = PULSE_TYPE.SYNCH_FIRST_PULSE

/-- The data-pair test inside `Receiver::analyzePulsePair` (RcSwitch.cpp
lines 365-366): both pulses carry the same data classification and it is not
`UNKNOWN`; yields that classification, else `UNKNOWN`. -/
def pairDataType (prot : Protocol) (inverse : Bool) (firstPulse secondPulse : Pulse) : PULSE_TYPE :=
  let sd := (prot.pulseToPulseTypes inverse secondPulse).mPulseTypeData
  if sd = (prot.pulseToPulseTypes inverse firstPulse).mPulseTypeData ∧ sd ≠ PULSE_TYPE.UNKNOWN then sd
  else PULSE_TYPE.UNKNOWN

/-- The candidate loop of `Receiver::analyzePulsePair` (RcSwitch.cpp lines
345-377), acting on the candidate index list ordered top of stack first
(the source iterates `protocolCandidatesIndex` from `size()-1` down to 0 and
`remove` only shifts already-visited elements). Returns the C++ return value
together with the surviving candidates, still top first. -/
def analyzeRev (table : List Protocol) (inverse : Bool) (firstPulse secondPulse : Pulse) :
    List Nat → PULSE_TYPE × List Nat
  | [] => (PULSE_TYPE.UNKNOWN, [])
  | c :: rest =>
    let prot := table.getD c default
    if pairIsSynch prot inverse firstPulse secondPulse then
      (PULSE_TYPE.SYCH_PULSE, c :: rest)
    else
      let d := pairDataType prot inverse firstPulse secondPulse
      if d ≠ PULSE_TYPE.UNKNOWN then
        let r := analyzeRev table inverse firstPulse secondPulse rest
        ((if r.1 = PULSE_TYPE.SYCH_PULSE then PULSE_TYPE.SYCH_PULSE else d), c :: r.2)
      else
        analyzeRev table inverse firstPulse secondPulse rest

/-- `Receiver::analyzePulsePair` on the candidate set: runs the downward
loop (modelled on the reversed index list) and returns the pulse type with
the updated candidate set (removals never touch the overflow counter or the
group tag). -/
def analyzePulsePairFn (pc : ProtocolCandidates) (firstPulse secondPulse : Pulse) :
    PULSE_TYPE × ProtocolCandidates :=
  let tp := getProtocolTable pc.mProtocolGroupId
  let r := analyzeRev tp.1 tp.2 firstPulse secondPulse pc.stack.mData.reverse
  (r.1, { pc with stack := { pc.stack with mData := r.2.reverse } })

/-- The `RingBuffer<Pulse, DATA_PULSES_PER_BIT>` base of `Receiver`
(RcSwitch.hpp lines 274-341) with its two storage slots, `mSize` and
`mBegin`. `squashedIndex i = (i + 2) % 2`. -/
structure Ring2 where
  slot0 : Pulse
  slot1 : Pulse
  mSize : Nat
  mBegin : Nat
deriving DecidableEq, Repr

/-- `RingBuffer::at`: element at logical index `i` (0 = oldest). -/
def Ring2.at (r : Ring2) (i : Nat) : Pulse :=
  if (r.mBegin + i) % 2 = 0 then r.slot0 else r.slot1

/-- `RingBuffer::push` via `beyondTop` and `selectNext` (RcSwitch.hpp lines
300-322): write the slot beyond the top, then either grow or advance
`mBegin`. -/
def Ring2.push (r : Ring2) (p : Pulse) : Ring2 :=
  let idx := (r.mBegin + r.mSize) % 2
  let r' := if idx = 0 then { r with slot0 := p } else { r with slot1 := p }
  if r'.mSize < 2 then { r' with mSize := r'.mSize + 1 }
  else { r' with mBegin := (r'.mBegin + r'.mSize + 1) % 2 }

/-- `RingBuffer::reset`. -/
def Ring2.reset (_r : Ring2) : Ring2 := ⟨default, default, 0, 0⟩

/-- `Receiver::STATE` from RcSwitch.hpp. -/
inductive STATE where
  | AVAILABLE_STATE
  | SYNC_STATE
  | DATA_STATE
deriving DecidableEq, Repr

/-- The state of class `Receiver` (RcSwitch.hpp lines 530-610): the 2-pulse
ring base class plus the message packet, the availability and suspension
flags, the candidate set, the intra-bit pulse counter and the last interrupt
time. -/
structure Receiver where
  ring : Ring2
  mReceivedMessagePacket : StackBuffer DATA_BIT
  mMessageAvailable : Bool
  mSuspended : Bool
  mProtocolCandidates : ProtocolCandidates
  mDataModePulseCount : Nat
  mMicrosecLastInterruptTime : Nat
deriving DecidableEq, Repr

/-- The freshly constructed `Receiver` (constructor, RcSwitch.hpp lines
574-581). -/
def Receiver.initial : Receiver :=
  ⟨⟨default, default, 0, 0⟩, ⟨[], 0⟩, false, false,
   ⟨⟨[], 0⟩, PROTOCOL_GROUP_ID.UNKNOWN_PROTOCOL⟩, 0, 0⟩

/-- `Receiver::state` from RcSwitch.cpp lines 451-456. -/
def Receiver.state (rcv : Receiver) : STATE :=
  if rcv.mMessageAvailable then STATE.AVAILABLE_STATE
  else if rcv.mProtocolCandidates.stack.mData.length ≠ 0 then STATE.DATA_STATE
  else STATE.SYNC_STATE

/-- `Receiver::available`. -/
def Receiver.available (rcv : Receiver) : Bool :=
  rcv.state = STATE.AVAILABLE_STATE

/-- `Receiver::push` from RcSwitch.cpp lines 444-449: the level stored for
the elapsed interval is `LO` when the pin level after the edge is nonzero,
else `HI`. -/
def Receiver.pushPulse (rcv : Receiver) (microSecDuration : Nat) (pinLevel : Int) : Receiver :=
  { rcv with ring :=
      rcv.ring.push ⟨microSecDuration, if pinLevel ≠ 0 then PULSE_LEVEL.LO else PULSE_LEVEL.HI⟩ }

/-- `Receiver::retry` from RcSwitch.cpp lines 459-462: clears the message
packet and the pulse ring. -/
def Receiver.retry (rcv : Receiver) : Receiver :=
  { rcv with mReceivedMessagePacket := rcv.mReceivedMessagePacket.resetBuf,
             ring := rcv.ring.reset }

/-- `Receiver::reset` from RcSwitch.cpp lines 464-475: clears candidates,
packet and ring, and drops the availability flag last. -/
def Receiver.reset (rcv : Receiver) : Receiver :=
  { rcv with mProtocolCandidates := rcv.mProtocolCandidates.reset,
             mReceivedMessagePacket := rcv.mReceivedMessagePacket.resetBuf,
             ring := rcv.ring.reset,
             mMessageAvailable := false }

/-- The body of `Receiver::handleInterrupt` (RcSwitch.cpp lines 379-441)
executed when not suspended, before the final update of
`mMicrosecLastInterruptTime`. The duration is the `uint32_t` difference of
the interrupt times. -/
def Receiver.handleInterruptBody (rcv : Receiver) (pinLevel : Int) (microSecInterruptTime : Nat) : Receiver :=
  let microSecDuration :=
    (microSecInterruptTime + (UINT32_MOD - rcv.mMicrosecLastInterruptTime % UINT32_MOD)) % UINT32_MOD
  let rcv := rcv.pushPulse microSecDuration pinLevel
  match rcv.state with
  | STATE.SYNC_STATE =>
    if rcv.ring.mSize > 1 then
      { rcv with mProtocolCandidates :=
          (collectProtocolCandidatesFn rcv.mProtocolCandidates
            (rcv.ring.at (rcv.ring.mSize - 2)) (rcv.ring.at (rcv.ring.mSize - 1))) }
    else rcv
  | STATE.DATA_STATE =>
    if rcv.mDataModePulseCount + 1 = 2 then
      let rcv := { rcv with mDataModePulseCount := 0 }
      let firstPulse := rcv.ring.at (rcv.ring.mSize - 2)
      let secondPulse := rcv.ring.at (rcv.ring.mSize - 1)
      let ar := analyzePulsePairFn rcv.mProtocolCandidates firstPulse secondPulse
      let rcv := { rcv with mProtocolCandidates := ar.2 }
      if ar.1 = PULSE_TYPE.UNKNOWN then
        let rcv := { rcv with mProtocolCandidates :=
          collectProtocolCandidatesFn rcv.mProtocolCandidates.reset firstPulse secondPulse }
        rcv.retry
      else
        if ar.1 = PULSE_TYPE.SYCH_PULSE then
          if rcv.mReceivedMessagePacket.mData.length ≥ MIN_MSG_PACKET_BITS then
            { rcv with mMessageAvailable := true }
          else
            let rcv := { rcv with mProtocolCandidates :=
              collectProtocolCandidatesFn rcv.mProtocolCandidates.reset firstPulse secondPulse }
            rcv.retry
        else
          let dataBit := if ar.1 = PULSE_TYPE.DATA_LOGICAL_0 then DATA_BIT.LOGICAL_0
                         else DATA_BIT.LOGICAL_1
          { rcv with mReceivedMessagePacket :=
              rcv.mReceivedMessagePacket.push MAX_MSG_PACKET_BITS dataBit }
    else { rcv with mDataModePulseCount := rcv.mDataModePulseCount + 1 }
  | STATE.AVAILABLE_STATE => rcv

/-- `Receiver::handleInterrupt` from RcSwitch.cpp lines 379-441. -/
def Receiver.handleInterrupt (rcv : Receiver) (pinLevel : Int) (microSecInterruptTime : Nat) : Receiver :=
  let rcv' := if ¬rcv.mSuspended then rcv.handleInterruptBody pinLevel microSecInterruptTime else rcv
  { rcv' with mMicrosecLastInterruptTime := microSecInterruptTime }

/-- `Receiver::receivedBitsCount` from RcSwitch.cpp lines 477-483. -/
def Receiver.receivedBitsCount (rcv : Receiver) : Nat :=
  if rcv.available then
    rcv.mReceivedMessagePacket.mData.length + rcv.mReceivedMessagePacket.overflowCount
  else 0

/-- One iteration of the loop in `Receiver::receivedValue`:
`result = result << 1; if (bit == LOGICAL_1) result |= 1;` in `uint32_t`. -/
def receivedValueStep (result : Nat) (b : DATA_BIT) : Nat :=
  let shifted := result * 2 % UINT32_MOD
  if b = DATA_BIT.LOGICAL_1 then shifted ||| 1 else shifted

/-- `Receiver::receivedValue` from RcSwitch.cpp lines 485-498. -/
def Receiver.receivedValue (rcv : Receiver) : Nat :=
  if rcv.available then rcv.mReceivedMessagePacket.mData.foldl receivedValueStep 0
  else 0

/-- The MSB-first numeric value of a bit list: the fold by left shift and
OR that section 4.5 of the specification describes ("the first received bit
in the most-significant position"). -/
def msbFirstValue (bits : List DATA_BIT) : Nat :=
  bits.foldl (fun acc b => 2 * acc + (if b = DATA_BIT.LOGICAL_1 then 1 else 0)) 0

/-- The twelve range bounds (plus the six nominal durations) that
`makeTimingSpec` (ProtocolTimingSpec.hpp lines 177-214) and `MakeProtocol`
(Protocol.hpp lines 131-166) compute as `constexpr size_t` values. -/
structure TimingSpecFields where
  uSecSynchA : Nat
  uSecSynchB : Nat
  usecSynchA_lowerBound : Nat
  usecSynchA_upperBound : Nat
  usecSynchB_lowerBound : Nat
  usecSynchB_upperBound : Nat
  uSecData0_A : Nat
  uSecData0_B : Nat
  uSecData0_A_lowerBound : Nat
  uSecData0_A_upperBound : Nat
  uSecData0_B_lowerBound : Nat
  uSecData0_B_upperBound : Nat
  uSecData1_A : Nat
  uSecData1_B : Nat
  uSecData1_A_lowerBound : Nat
  uSecData1_A_upperBound : Nat
  uSecData1_B_lowerBound : Nat
  uSecData1_B_upperBound : Nat
deriving DecidableEq, Repr

/-- One lower bound as the source computes it: `base * (100 - tol) / 100`
with every operation in `size_t` of width `w` (multiplication wraps modulo
`2^w`; the unsigned subtraction `100 - tol` also wraps when `tol > 100`). -/
def specLowerBound (w base tol : Nat) : Nat :=
  base * ((2 ^ w + 100 - tol % 2 ^ w) % 2 ^ w) % 2 ^ w / 100

/-- One upper bound as the source computes it: `base * (100 + tol) / 100`
in `size_t` of width `w`. -/
def specUpperBound (w base tol : Nat) : Nat :=
  base * ((100 + tol) % 2 ^ w) % 2 ^ w / 100

/-- `makeTimingSpec` from ProtocolTimingSpec.hpp lines 177-214 (identical
arithmetic in `MakeProtocol`, Protocol.hpp lines 131-166), evaluated in the
`size_t` type of bit width `w` of the target platform (w = 16 on AVR,
w = 32 or 64 elsewhere). The template's `constexpr` chain is reproduced
field by field. -/
def makeTimingSpec (w clock percentTolerance synchA synchB data0_A data0_B data1_A data1_B : Nat) :
    TimingSpecFields :=
  let uSecSynchA := clock * synchA % 2 ^ w
  let uSecSynchB := clock * synchB % 2 ^ w
  let uSecData0_A := clock * data0_A % 2 ^ w
  let uSecData0_B := clock * data0_B % 2 ^ w
  let uSecData1_A := clock * data1_A % 2 ^ w
  let uSecData1_B := clock * data1_B % 2 ^ w
  { uSecSynchA := uSecSynchA
    uSecSynchB := uSecSynchB
    usecSynchA_lowerBound := specLowerBound w uSecSynchA percentTolerance
    usecSynchA_upperBound := specUpperBound w uSecSynchA percentTolerance
    usecSynchB_lowerBound := specLowerBound w uSecSynchB percentTolerance
    usecSynchB_upperBound := specUpperBound w uSecSynchB percentTolerance
    uSecData0_A := uSecData0_A
    uSecData0_B := uSecData0_B
    uSecData0_A_lowerBound := specLowerBound w uSecData0_A percentTolerance
    uSecData0_A_upperBound := specUpperBound w uSecData0_A percentTolerance
    uSecData0_B_lowerBound := specLowerBound w uSecData0_B percentTolerance
    uSecData0_B_upperBound := specUpperBound w uSecData0_B percentTolerance
    uSecData1_A := uSecData1_A
    uSecData1_B := uSecData1_B
    uSecData1_A_lowerBound := specLowerBound w uSecData1_A percentTolerance
    uSecData1_A_upperBound := specUpperBound w uSecData1_A percentTolerance
    uSecData1_B_lowerBound := specLowerBound w uSecData1_B percentTolerance
    uSecData1_B_upperBound := specUpperBound w uSecData1_B percentTolerance }

/-- The exact (no-overflow) value of a bound:
`clock * multiplier * (100 - tol) / 100` over unbounded integers. -/
def exactLowerBound (clock mult tol : Nat) : Nat := clock * mult * (100 - tol) / 100

/-- The exact (no-overflow) value of a bound:
`clock * multiplier * (100 + tol) / 100` over unbounded integers. -/
def exactUpperBound (clock mult tol : Nat) : Nat := clock * mult * (100 + tol) / 100

/-- The `PulseCategory` aggregate that PulseAnalyzer2.hpp works with (see
the aggregate initialization in `putPulseInCategory`, lines 177-185: level,
running mean duration, min, max, count). -/
structure PulseCategory where
  pulseLevel : PULSE_LEVEL
  microSecDuration : Nat
  microSecMinDuration : Nat
  microSecMaxDuration : Nat
  pulseCount : Nat
deriving DecidableEq, Repr

instance : Inhabited PulseCategory := ⟨⟨PULSE_LEVEL.UNKNOWN, 0, 0, 0, 0⟩⟩

/-- `SYNCH_PULSES_MIN_RATIO` from PulseAnalyzer2.hpp line 60 (renamed here:
the numeric value 8 is unchanged). -/
def SYNCH_PULSES_MIN_FACTOR : Nat := 8

/-- Number of synch pulse categories (PulseAnalyzer2.hpp line 51). -/
def SYNCH_PULSE_CATEGORIY_COUNT : Nat := 2

/-- `PulseCategoryCollection::isValidSynchPulsePair` from PulseAnalyzer2.hpp
lines 264-275, on the category stack's element list (sorted ascending by
duration by the preceding `sortByDuration`). The comparison is performed in
`uint32_t`, hence the reductions modulo 2^32. -/
def isValidSynchPulsePair (cats : List PulseCategory) : Bool :=
  if cats.length = SYNCH_PULSE_CATEGORIY_COUNT then
    let shorterPulse := cats.getD 0 default
    let longerPulse := cats.getD 1 default
    decide (longerPulse.microSecDuration % UINT32_MOD >
      SYNCH_PULSES_MIN_FACTOR * shorterPulse.microSecDuration % UINT32_MOD)
  else false

/-- Written from the specification's words for the refinement claim about
the candidate collector (spec section 4.4): a full scan, with no early
exit, that selects every table entry whose sync-A range contains pulse A's
duration and whose sync-B range contains pulse B's duration, both ranges
half-open. For the normal-level group, sync A is the high-level pulse and
sync B the low-level pulse. -/
def fullScanNormalSpec (d0 d1 : Nat) : Nat → List Protocol → List Nat
  | _, [] => []
  | i, prot :: rest =>
    if d0 ≥ prot.synchronizationPulsePair.durationHighLevelPulse.lowerBound ∧
       d0 < prot.synchronizationPulsePair.durationHighLevelPulse.upperBound ∧
       d1 ≥ prot.synchronizationPulsePair.durationLowLevelPulse.lowerBound ∧
       d1 < prot.synchronizationPulsePair.durationLowLevelPulse.upperBound then
      i :: fullScanNormalSpec d0 d1 (i + 1) rest
    else fullScanNormalSpec d0 d1 (i + 1) rest

/-- Written from the specification's words (spec section 4.4), inverse-level
group: sync A is the low-level pulse and sync B the high-level pulse, both
ranges half-open. -/
def fullScanInverseSpec (d0 d1 : Nat) : Nat → List Protocol → List Nat
  | _, [] => []
  | i, prot :: rest =>
    if d0 ≥ prot.synchronizationPulsePair.durationLowLevelPulse.lowerBound ∧
       d0 < prot.synchronizationPulsePair.durationLowLevelPulse.upperBound ∧
       d1 ≥ prot.synchronizationPulsePair.durationHighLevelPulse.lowerBound ∧
       d1 < prot.synchronizationPulsePair.durationHighLevelPulse.upperBound then
      i :: fullScanInverseSpec d0 d1 (i + 1) rest
    else fullScanInverseSpec d0 d1 (i + 1) rest

/-- The full scan that the inverse-level collector actually implements:
pulse A is only required to reach the sync-A lower bound (no upper-bound
check: the first sync pulse may be longer), pulse B is checked half-open
against sync B. -/
def fullScanInverseRelaxed (d0 d1 : Nat) : Nat → List Protocol → List Nat
  | _, [] => []
  | i, prot :: rest =>
    if d0 ≥ prot.synchronizationPulsePair.durationLowLevelPulse.lowerBound ∧
       d1 ≥ prot.synchronizationPulsePair.durationHighLevelPulse.lowerBound ∧
       d1 < prot.synchronizationPulsePair.durationHighLevelPulse.upperBound then
      i :: fullScanInverseRelaxed d0 d1 (i + 1) rest
    else fullScanInverseRelaxed d0 d1 (i + 1) rest

/-- Sorted ascending by the normal-group sync-A (high-level pulse) lower
bound: the table invariant the early exit relies on. -/
def sortedBySynchAHigh (table : List Protocol) : Prop :=
  table.Pairwise (fun p q =>
    p.synchronizationPulsePair.durationHighLevelPulse.lowerBound ≤
    q.synchronizationPulsePair.durationHighLevelPulse.lowerBound)

/-- Sorted ascending by the inverse-group sync-A (low-level pulse) lower
bound. -/
def sortedBySynchALow (table : List Protocol) : Prop :=
  table.Pairwise (fun p q =>
    p.synchronizationPulsePair.durationLowLevelPulse.lowerBound ≤
    q.synchronizationPulsePair.durationLowLevelPulse.lowerBound)

instance (table : List Protocol) : Decidable (sortedBySynchAHigh table) := by
  unfold sortedBySynchAHigh
  infer_instance

instance (table : List Protocol) : Decidable (sortedBySynchALow table) := by
  unfold sortedBySynchALow
  infer_instance

/-- The data result described for the candidate loop: scanning the
candidate indices from the head of the given list (= highest stack index,
the iteration order of `analyzePulsePair`), the data classification of the
first candidate whose spec matched the pair as a data pair, `UNKNOWN` when
none did. -/
def firstDataRev (table : List Protocol) (inverse : Bool) (firstPulse secondPulse : Pulse) :
    List Nat → PULSE_TYPE
  | [] => PULSE_TYPE.UNKNOWN
  | c :: rest =>
    let d := pairDataType (table.getD c default) inverse firstPulse secondPulse
    if d ≠ PULSE_TYPE.UNKNOWN then d
    else firstDataRev table inverse firstPulse secondPulse rest

/-- The reachable-state property of claim C2: whenever the available flag
is set, the accumulated message packet holds at least `MIN_MSG_PACKET_BITS`
bits and the protocol-candidate set is non-empty. -/
def ReceiverInv (rcv : Receiver) : Prop :=
  rcv.mMessageAvailable = true →
    MIN_MSG_PACKET_BITS ≤ rcv.mReceivedMessagePacket.mData.length ∧
    1 ≤ rcv.mProtocolCandidates.stack.mData.length

/-! ## Theorems -/

/-- Claim C1: the source defines the enumerators `TOO_SHORT` and `TOO_LONG`
both as -1, so `TimeRange::compare` is not a genuine three-way
classification: the result for a duration below the window is equal to the
result for a duration at or above the window. The window boundaries
themselves behave as claimed (`lower` in range, `upper` out of range), but
the three results are not pairwise distinct: this theorem exhibits the
collapse at the concrete range 10..20 with durations 5 and 25. -/
theorem timeRange_compare_not_three_way :
    TimeRange.TOO_SHORT = TimeRange.TOO_LONG ∧
    TimeRange.compare ⟨10, 20⟩ 5 = TimeRange.compare ⟨10, 20⟩ 25 ∧
    TimeRange.compare ⟨10, 20⟩ 5 = TimeRange.TOO_SHORT ∧
    TimeRange.compare ⟨10, 20⟩ 25 = TimeRange.TOO_LONG ∧
    TimeRange.compare ⟨10, 20⟩ 10 = TimeRange.IS_WITHIN ∧
    TimeRange.compare ⟨10, 20⟩ 19 = TimeRange.IS_WITHIN ∧
    TimeRange.compare ⟨10, 20⟩ 20 = TimeRange.TOO_LONG ∧
    TimeRange.IS_WITHIN ≠ TimeRange.TOO_SHORT := by
  decide

/-- Claim C7, counterexample: with the first pulse HIGH (duration 300) and
the second pulse of UNKNOWN level (duration 9000), the collector is not
ignored: it pushes table indices 0 and 1 (protocols 7 and 1) and also sets
the group tag, so the candidate set changes although one pulse level is
UNKNOWN. The source only guards the level of the first pulse. -/
theorem collectProtocolCandidates_unknown_second_level_not_ignored :
    collectProtocolCandidatesFn ⟨⟨[], 0⟩, PROTOCOL_GROUP_ID.UNKNOWN_PROTOCOL⟩
      ⟨300, PULSE_LEVEL.HI⟩ ⟨9000, PULSE_LEVEL.UNKNOWN⟩ ≠
      ⟨⟨[], 0⟩, PROTOCOL_GROUP_ID.UNKNOWN_PROTOCOL⟩ ∧
    (collectProtocolCandidatesFn ⟨⟨[], 0⟩, PROTOCOL_GROUP_ID.UNKNOWN_PROTOCOL⟩
      ⟨300, PULSE_LEVEL.HI⟩ ⟨9000, PULSE_LEVEL.UNKNOWN⟩).stack.mData = [0, 1] := by
  decide

/-- Claim C7, amended: if the FIRST pulse's level is UNKNOWN (or the two
levels are equal), the candidate-collector call is silently ignored: it
pushes nothing and leaves the candidate set (indices, overflow counter and
group tag) unchanged. An UNKNOWN level on the second pulse alone does not
suppress collection. -/
theorem collectProtocolCandidates_ignored_cases (pc : ProtocolCandidates) (pulse_0 pulse_1 : Pulse)
    (h : pulse_0.mPulseLevel = PULSE_LEVEL.UNKNOWN ∨ pulse_0.mPulseLevel = pulse_1.mPulseLevel) :
    collectProtocolCandidatesFn pc pulse_0 pulse_1 = pc := by
  unfold collectProtocolCandidatesFn
  rcases h with h | h
  · rcases h' : pulse_1.mPulseLevel <;> simp [h, h']
  · simp [h]

/-- Witness for the amended claim C7 at a concrete input. -/
theorem collectProtocolCandidates_ignored_cases_witness :
    (Pulse.mk 300 PULSE_LEVEL.UNKNOWN).mPulseLevel = PULSE_LEVEL.UNKNOWN ∧
    collectProtocolCandidatesFn ⟨⟨[], 0⟩, PROTOCOL_GROUP_ID.UNKNOWN_PROTOCOL⟩
      ⟨300, PULSE_LEVEL.UNKNOWN⟩ ⟨9000, PULSE_LEVEL.HI⟩ =
      ⟨⟨[], 0⟩, PROTOCOL_GROUP_ID.UNKNOWN_PROTOCOL⟩ :=
  ⟨rfl, collectProtocolCandidates_ignored_cases _ _ _ (Or.inl rfl)⟩

/-- Claim C9, counterexample: two synch clusters whose duration ratio is
exactly 8 (shorter 100 us, longer 800 us, sorted ascending) are REJECTED by
`isValidSynchPulsePair`, although the claim says a ratio of at least 8 is
accepted: the source requires `longer > 8 * shorter`, strictly. -/
theorem isValidSynchPulsePair_ratio_exactly_8_rejected :
    isValidSynchPulsePair
      [⟨PULSE_LEVEL.LO, 100, 100, 100, 1⟩, ⟨PULSE_LEVEL.HI, 800, 800, 800, 1⟩] = false ∧
    800 = SYNCH_PULSES_MIN_FACTOR * 100 := by
  decide

/-- Claim C9, amended: given exactly two synch pulse clusters sorted
ascending by duration (and durations small enough that the `uint32_t`
comparison does not wrap), the analyzer accepts them as a valid synch pulse
pair exactly when the longer cluster's duration is STRICTLY greater than 8
times the shorter cluster's duration; a ratio of 8 or below is rejected. -/
theorem isValidSynchPulsePair_iff_strict (shorter longer : PulseCategory)
    (hs : SYNCH_PULSES_MIN_FACTOR * shorter.microSecDuration < UINT32_MOD)
    (hl : longer.microSecDuration < UINT32_MOD) :
    isValidSynchPulsePair [shorter, longer] =
      decide (longer.microSecDuration > SYNCH_PULSES_MIN_FACTOR * shorter.microSecDuration) := by
  unfold isValidSynchPulsePair
  rw [if_pos (by rfl)]
  show decide (longer.microSecDuration % UINT32_MOD >
    SYNCH_PULSES_MIN_FACTOR * shorter.microSecDuration % UINT32_MOD) = _
  rw [Nat.mod_eq_of_lt hl, Nat.mod_eq_of_lt hs]

/-- Witness for the amended claim C9 at a concrete input: 100 us vs 801 us
is accepted (ratio strictly above 8). -/
theorem isValidSynchPulsePair_iff_strict_witness :
    SYNCH_PULSES_MIN_FACTOR * 100 < UINT32_MOD ∧
    isValidSynchPulsePair
      [⟨PULSE_LEVEL.LO, 100, 100, 100, 1⟩, ⟨PULSE_LEVEL.HI, 801, 801, 801, 1⟩] = true := by
  constructor
  · decide
  · rw [isValidSynchPulsePair_iff_strict ⟨PULSE_LEVEL.LO, 100, 100, 100, 1⟩
      ⟨PULSE_LEVEL.HI, 801, 801, 801, 1⟩ (by decide) (by decide)]
    decide

/-- Claim C10: when no message is available, the read accessors are total
and defined: `receivedValue()` returns 0 and `receivedBitsCount()` returns
0. In this embedding both accessors are pure functions of the receiver
state (they are `const` in the source), so neither modifies the state. -/
theorem accessors_zero_when_unavailable (rcv : Receiver) (h : rcv.available = false) :
    rcv.receivedValue = 0 ∧ rcv.receivedBitsCount = 0 := by
  unfold Receiver.receivedValue Receiver.receivedBitsCount
  rw [h]
  simp

/-- Witness for claim C10 at the freshly constructed receiver. -/
theorem accessors_zero_when_unavailable_witness :
    Receiver.initial.available = false ∧
    Receiver.initial.receivedValue = 0 ∧ Receiver.initial.receivedBitsCount = 0 :=
  ⟨by decide, accessors_zero_when_unavailable Receiver.initial (by decide)⟩

/-- Claim C8: the timing-table bounds are NOT computed in 32-bit arithmetic;
the source computes them in `size_t`. On a 16-bit `size_t` target (AVR) the
intermediate product overflows: for the shipped protocol-8 definition
`makeTimingSpec<8, 200, 20, 3, 130, 7, 16, 3, 16>` the synch-B upper bound
evaluates to 398 instead of the exact `200 * 130 * (100+20) / 100 = 31200`.
With a 32-bit `size_t` the same field is exact. (Pulse.hpp lines 119-134
documents the 16-bit overflow hazard and casts to `uint32_t` for the same
computation elsewhere, so the missing cast here contradicts the code's own
documentation.) -/
theorem makeTimingSpec_16bit_size_t_overflows :
    (makeTimingSpec 16 200 20 3 130 7 16 3 16).usecSynchB_upperBound = 398 ∧
    exactUpperBound 200 130 20 = 31200 ∧
    (makeTimingSpec 16 200 20 3 130 7 16 3 16).usecSynchB_upperBound ≠
      exactUpperBound 200 130 20 ∧
    (makeTimingSpec 32 200 20 3 130 7 16 3 16).usecSynchB_upperBound =
      exactUpperBound 200 130 20 := by
  decide

/-- Bitwise helper: OR-ing 1 into an even number is addition of 1. -/
theorem two_mul_lor_one (k : Nat) : 2 * k ||| 1 = 2 * k + 1 := by
  have h := Nat.lor_bit false k true 0
  simpa [Nat.bit] using h

/-- The `uint32_t` shift-and-or loop of `receivedValue` computes the plain
MSB-first fold as long as no intermediate value can reach 2^32. -/
theorem foldl_receivedValueStep_eq (bits : List DATA_BIT) :
    ∀ acc : Nat, acc * 2 ^ bits.length + (2 ^ bits.length - 1) < UINT32_MOD →
    bits.foldl receivedValueStep acc =
      bits.foldl (fun a b => 2 * a + (if b = DATA_BIT.LOGICAL_1 then 1 else 0)) acc := by
  induction bits with
  | nil => intro acc _; rfl
  | cons b bs ih =>
    intro acc hacc
    have hP : 1 ≤ 2 ^ bs.length := Nat.one_le_two_pow
    have hlen : (2 : Nat) ^ (b :: bs).length = 2 * 2 ^ bs.length := by
      simp [List.length_cons, Nat.pow_succ, Nat.mul_comm]
    rw [hlen] at hacc
    have h2acc : 2 * acc < UINT32_MOD := by
      have : 2 * acc ≤ acc * (2 * 2 ^ bs.length) := by
        calc 2 * acc = acc * 2 := by ring
        _ ≤ acc * (2 * 2 ^ bs.length) := Nat.mul_le_mul_left acc (by omega)
      omega
    have hstep : receivedValueStep acc b =
        2 * acc + (if b = DATA_BIT.LOGICAL_1 then 1 else 0) := by
      unfold receivedValueStep
      rw [Nat.mul_comm acc 2, Nat.mod_eq_of_lt h2acc]
      rcases hb : b <;> simp [two_mul_lor_one]
    rw [List.foldl_cons, List.foldl_cons, hstep]
    apply ih
    have hbit : (if b = DATA_BIT.LOGICAL_1 then 1 else 0) ≤ 1 := by
      rcases b <;> simp
    set v := (if b = DATA_BIT.LOGICAL_1 then 1 else 0) with hv
    have : (2 * acc + v) * 2 ^ bs.length ≤ acc * (2 * 2 ^ bs.length) + 2 ^ bs.length := by
      have := Nat.mul_le_mul_right (2 ^ bs.length) (show 2 * acc + v ≤ 2 * acc + 1 by omega)
      calc (2 * acc + v) * 2 ^ bs.length ≤ (2 * acc + 1) * 2 ^ bs.length := this
        _ = acc * (2 * 2 ^ bs.length) + 2 ^ bs.length := by ring
    omega

/-- Claim C3: in every receiver state in which a message is available (and
whose packet respects the `MAX_MSG_PACKET_BITS` capacity, as every reachable
packet does), `receivedValue()` equals the fold of the stored bits by left
shift and OR: the first received bit ends up in the most significant
position. The witness below checks the spec's example: bits 0,1,0,0,1,1
yield 0x13. -/
theorem receivedValue_is_msbFirst (rcv : Receiver) (h : rcv.available = true)
    (hlen : rcv.mReceivedMessagePacket.mData.length ≤ MAX_MSG_PACKET_BITS) :
    rcv.receivedValue = msbFirstValue rcv.mReceivedMessagePacket.mData := by
  unfold Receiver.receivedValue msbFirstValue
  rw [h]
  simp only [if_true]
  apply foldl_receivedValueStep_eq
  have h1 : (2 : Nat) ^ rcv.mReceivedMessagePacket.mData.length ≤ 4294967296 := by
    calc (2 : Nat) ^ rcv.mReceivedMessagePacket.mData.length
        ≤ 2 ^ 32 := Nat.pow_le_pow_right (by omega) (by simpa [MAX_MSG_PACKET_BITS] using hlen)
      _ = 4294967296 := by norm_num
  unfold UINT32_MOD
  omega

/-- Witness for claim C3: the spec's happy-path example, stored bits
0,1,0,0,1,1 give received value 0x13 = 19. -/
theorem receivedValue_is_msbFirst_witness :
    Receiver.receivedValue
      ⟨⟨default, default, 0, 0⟩,
       ⟨[DATA_BIT.LOGICAL_0, DATA_BIT.LOGICAL_1, DATA_BIT.LOGICAL_0,
         DATA_BIT.LOGICAL_0, DATA_BIT.LOGICAL_1, DATA_BIT.LOGICAL_1], 0⟩,
       true, false, ⟨⟨[0], 0⟩, PROTOCOL_GROUP_ID.NORMAL_LEVEL_PROTOCOLS⟩, 0, 0⟩ = 19 := by
  rw [receivedValue_is_msbFirst _ (by decide) (by decide)]
  decide

/-- `StackBuffer::push` folded over a whole input list: the buffer keeps the
first `cap - initial size` elements in order and counts every further
element in the overflow counter. -/
theorem foldl_push_spec (cap : Nat) (l : List α) :
    ∀ s : StackBuffer α, s.mData.length ≤ cap →
    (l.foldl (StackBuffer.push cap) s).mData = s.mData ++ l.take (cap - s.mData.length) ∧
    (l.foldl (StackBuffer.push cap) s).mOverflow =
      s.mOverflow + (l.length - (cap - s.mData.length)) := by
  induction l with
  | nil => intro s hs; simp
  | cons a bs ih =>
    intro s hs
    rw [List.foldl_cons]
    by_cases hlt : s.mData.length < cap
    · have hpush : StackBuffer.push cap s a = ⟨s.mData ++ [a], s.mOverflow⟩ := by
        unfold StackBuffer.push
        rw [if_pos hlt]
      rw [hpush]
      obtain ⟨hd, ho⟩ := ih ⟨s.mData ++ [a], s.mOverflow⟩ (by simp; omega)
      simp only [List.length_append, List.length_cons, List.length_nil] at hd ho
      constructor
      · rw [hd, List.append_assoc]
        have htake : a :: bs.take (cap - (s.mData.length + 1)) = (a :: bs).take (cap - s.mData.length) := by
          have : cap - s.mData.length = (cap - (s.mData.length + 1)) + 1 := by omega
          rw [this, List.take_succ_cons]
        simp [htake]
      · rw [ho]
        simp only [List.length_cons]
        omega
    · have hcap : s.mData.length = cap := by omega
      have hpush : StackBuffer.push cap s a = ⟨s.mData, s.mOverflow + 1⟩ := by
        unfold StackBuffer.push
        rw [if_neg hlt]
      rw [hpush]
      obtain ⟨hd, ho⟩ := ih ⟨s.mData, s.mOverflow + 1⟩ (by simpa using hs)
      simp only at hd ho
      constructor
      · rw [hd, hcap]
        simp
      · rw [ho, hcap]
        simp only [List.length_cons]
        omega

/-- Claim C6: pushing `n > MAX_MSG_PACKET_BITS` data bits into the message
packet retains exactly the first `MAX_MSG_PACKET_BITS` bits in order, sets
the overflow counter to `n - MAX_MSG_PACKET_BITS`, and a receiver that
publishes that packet reports `receivedBitsCount() = n`, which exceeds
`MAX_MSG_PACKET_BITS`. -/
theorem packet_overflow_accounting (l : List DATA_BIT) (rcv : Receiver)
    (hlen : l.length > MAX_MSG_PACKET_BITS)
    (hav : rcv.available = true)
    (hpk : rcv.mReceivedMessagePacket = l.foldl (StackBuffer.push MAX_MSG_PACKET_BITS) ⟨[], 0⟩) :
    rcv.mReceivedMessagePacket.mData = l.take MAX_MSG_PACKET_BITS ∧
    rcv.mReceivedMessagePacket.mOverflow = l.length - MAX_MSG_PACKET_BITS ∧
    rcv.receivedBitsCount = l.length ∧
    rcv.receivedBitsCount > MAX_MSG_PACKET_BITS := by
  obtain ⟨hd, ho⟩ := foldl_push_spec MAX_MSG_PACKET_BITS l ⟨[], 0⟩ (by simp)
  simp only [List.length_nil, Nat.sub_zero, List.nil_append, Nat.zero_add] at hd ho
  refine ⟨by rw [hpk, hd], by rw [hpk, ho], ?_, ?_⟩
  · unfold Receiver.receivedBitsCount StackBuffer.overflowCount
    rw [hav]
    simp only [if_true]
    rw [hpk, hd, ho, List.length_take]
    omega
  · unfold Receiver.receivedBitsCount StackBuffer.overflowCount
    rw [hav]
    simp only [if_true]
    rw [hpk, hd, ho, List.length_take]
    omega

set_option maxRecDepth 4096 in
/-- Witness for claim C6: 33 pushed bits (the spec's bit-overflow scenario)
leave 32 stored bits, overflow 1, and a receiver publishing that packet
reports 33 received bits. -/
theorem packet_overflow_accounting_witness :
    (List.replicate 33 DATA_BIT.LOGICAL_1).length > MAX_MSG_PACKET_BITS ∧
    Receiver.receivedBitsCount
      ⟨⟨default, default, 0, 0⟩,
       (List.replicate 33 DATA_BIT.LOGICAL_1).foldl (StackBuffer.push MAX_MSG_PACKET_BITS) ⟨[], 0⟩,
       true, false, ⟨⟨[1], 0⟩, PROTOCOL_GROUP_ID.NORMAL_LEVEL_PROTOCOLS⟩, 0, 0⟩ = 33 := by
  constructor
  · decide
  · have h := packet_overflow_accounting (List.replicate 33 DATA_BIT.LOGICAL_1)
      ⟨⟨default, default, 0, 0⟩,
       (List.replicate 33 DATA_BIT.LOGICAL_1).foldl (StackBuffer.push MAX_MSG_PACKET_BITS) ⟨[], 0⟩,
       true, false, ⟨⟨[1], 0⟩, PROTOCOL_GROUP_ID.NORMAL_LEVEL_PROTOCOLS⟩, 0, 0⟩
      (by decide) (by decide) rfl
    rw [h.2.2.1]
    decide

/-- The data classification of a pulse is always `DATA_LOGICAL_0`,
`DATA_LOGICAL_1` or `UNKNOWN`. -/
theorem pulseTypeData_cases (prot : Protocol) (inverse : Bool) (pulse : Pulse) :
    (prot.pulseToPulseTypes inverse pulse).mPulseTypeData = PULSE_TYPE.DATA_LOGICAL_0 ∨
    (prot.pulseToPulseTypes inverse pulse).mPulseTypeData = PULSE_TYPE.DATA_LOGICAL_1 ∨
    (prot.pulseToPulseTypes inverse pulse).mPulseTypeData = PULSE_TYPE.UNKNOWN := by
  unfold Protocol.pulseToPulseTypes
  rcases pulse.mPulseLevel <;> simp <;> split_ifs <;> simp_all

/-- `pairDataType` never yields the packet-end marker `SYCH_PULSE`. -/
theorem pairDataType_ne_sych (prot : Protocol) (inverse : Bool) (f s : Pulse) :
    pairDataType prot inverse f s ≠ PULSE_TYPE.SYCH_PULSE := by
  unfold pairDataType
  rcases pulseTypeData_cases prot inverse s with h | h | h <;> simp [h] <;> split_ifs <;> simp

/-- `firstDataRev` never yields `SYCH_PULSE`. -/
theorem firstDataRev_ne_sych (table : List Protocol) (inverse : Bool) (f s : Pulse) :
    ∀ l : List Nat, firstDataRev table inverse f s l ≠ PULSE_TYPE.SYCH_PULSE := by
  intro l
  induction l with
  | nil => simp [firstDataRev]
  | cons c rest ih =>
    simp only [firstDataRev]
    split_ifs with h
    · exact pairDataType_ne_sych _ _ _ _
    · exact ih

/-- If some candidate in the list matches the pair as a synch pair, the
candidate loop returns `SYCH_PULSE`. -/
theorem analyzeRev_sych_of_mem (table : List Protocol) (inverse : Bool) (f s : Pulse) :
    ∀ l : List Nat, (∃ c ∈ l, pairIsSynch (table.getD c default) inverse f s = true) →
    (analyzeRev table inverse f s l).1 = PULSE_TYPE.SYCH_PULSE := by
  intro l
  induction l with
  | nil => rintro ⟨c, hc, _⟩; cases hc
  | cons c rest ih =>
    rintro ⟨c', hc', hsy⟩
    simp only [analyzeRev]
    by_cases hc : pairIsSynch (table.getD c default) inverse f s = true
    · rw [if_pos hc]
    · have hc'' : c' ∈ rest := by
        rcases List.mem_cons.mp hc' with heq | hmem
        · exact absurd (heq ▸ hsy) hc
        · exact hmem
      have hrest := ih ⟨c', hc'', hsy⟩
      rw [if_neg hc]
      by_cases hd : pairDataType (table.getD c default) inverse f s ≠ PULSE_TYPE.UNKNOWN
      · rw [if_pos hd]
        dsimp only
        rw [if_pos hrest]
      · rw [if_neg hd]
        exact hrest

/-- If no candidate matches the pair as a synch pair, the candidate loop
returns the data result of the first (highest-index) candidate that matched
a data pair and keeps exactly the candidates that matched a data pair. -/
theorem analyzeRev_no_sych (table : List Protocol) (inverse : Bool) (f s : Pulse) :
    ∀ l : List Nat, (∀ c ∈ l, pairIsSynch (table.getD c default) inverse f s = false) →
    analyzeRev table inverse f s l =
      (firstDataRev table inverse f s l,
       l.filter (fun c => pairDataType (table.getD c default) inverse f s ≠ PULSE_TYPE.UNKNOWN)) := by
  intro l
  induction l with
  | nil => intro _; rfl
  | cons c rest ih =>
    intro h
    have hc := h c (List.mem_cons_self c rest)
    have hrest := ih (fun c' hc' => h c' (List.mem_cons_of_mem c hc'))
    have hne := firstDataRev_ne_sych table inverse f s rest
    simp only [analyzeRev, firstDataRev]
    rw [if_neg (by simp only [hc]; simp)]
    by_cases hd : pairDataType (table.getD c default) inverse f s ≠ PULSE_TYPE.UNKNOWN
    · rw [if_pos hd, if_pos hd, hrest]
      dsimp only
      simp only [Prod.mk.injEq]
      refine ⟨by rw [if_neg hne], ?_⟩
      rw [List.filter_cons, if_pos (by simpa using hd)]
    · rw [if_neg hd, if_neg hd, hrest]
      simp only [Prod.mk.injEq]
      refine ⟨trivial, ?_⟩
      rw [List.filter_cons, if_neg (by simpa using hd)]

/-- For claim C2: when the candidate loop reports a synch pair, the
surviving candidate list is non-empty (the matching candidate is kept). -/
theorem analyzeRev_sych_nonempty (table : List Protocol) (inverse : Bool) (f s : Pulse) :
    ∀ l : List Nat, (analyzeRev table inverse f s l).1 = PULSE_TYPE.SYCH_PULSE →
    (analyzeRev table inverse f s l).2 ≠ [] := by
  intro l
  induction l with
  | nil => intro h; cases h
  | cons c rest ih =>
    intro h
    simp only [analyzeRev] at h ⊢
    by_cases h1 : pairIsSynch (table.getD c default) inverse f s = true
    · rw [if_pos h1]
      simp
    · rw [if_neg h1] at h ⊢
      by_cases h2 : pairDataType (table.getD c default) inverse f s ≠ PULSE_TYPE.UNKNOWN
      · rw [if_pos h2]
        simp
      · rw [if_neg h2] at h ⊢
        exact ih h

/-- Claim C4: `analyzePulsePair` iterates the live candidates from highest
index to lowest (head of the reversed stack list first). It returns
`SYCH_PULSE` as soon as some candidate's spec matches the pair as a synch
pair; otherwise it returns the data result of the first candidate that
matched a data pair (or `UNKNOWN` if none), and exactly the candidates that
matched neither a synch pair nor a data pair are removed from the candidate
set. -/
theorem analyzePulsePair_iteration (pc : ProtocolCandidates) (firstPulse secondPulse : Pulse) :
    ((∃ c ∈ pc.stack.mData,
        pairIsSynch ((getProtocolTable pc.mProtocolGroupId).1.getD c default)
          (getProtocolTable pc.mProtocolGroupId).2 firstPulse secondPulse = true) →
      (analyzePulsePairFn pc firstPulse secondPulse).1 = PULSE_TYPE.SYCH_PULSE) ∧
    ((∀ c ∈ pc.stack.mData,
        pairIsSynch ((getProtocolTable pc.mProtocolGroupId).1.getD c default)
          (getProtocolTable pc.mProtocolGroupId).2 firstPulse secondPulse = false) →
      (analyzePulsePairFn pc firstPulse secondPulse).1 =
        firstDataRev (getProtocolTable pc.mProtocolGroupId).1
          (getProtocolTable pc.mProtocolGroupId).2 firstPulse secondPulse
          pc.stack.mData.reverse ∧
      (analyzePulsePairFn pc firstPulse secondPulse).2.stack.mData =
        pc.stack.mData.filter (fun c =>
          pairDataType ((getProtocolTable pc.mProtocolGroupId).1.getD c default)
            (getProtocolTable pc.mProtocolGroupId).2 firstPulse secondPulse ≠
            PULSE_TYPE.UNKNOWN)) := by
  constructor
  · rintro ⟨c, hc, hsy⟩
    simp only [analyzePulsePairFn]
    exact analyzeRev_sych_of_mem _ _ _ _ _ ⟨c, List.mem_reverse.mpr hc, hsy⟩
  · intro h
    simp only [analyzePulsePairFn]
    rw [analyzeRev_no_sych _ _ _ _ _ (fun c hc => h c (List.mem_reverse.mp hc))]
    dsimp only
    refine ⟨rfl, ?_⟩
    rw [List.filter_reverse, List.reverse_reverse]

/-- Witness for claim C4: candidate stack [0, 1] over the normal-level
table, pulse pair HIGH 350 us then LOW 1050 us. No candidate matches a
synch pair; the result is the data result of candidate index 1 (protocol 1,
logical 0) and candidate index 0 (protocol 7), which matched neither, is
removed. -/
theorem analyzePulsePair_iteration_witness :
    (∀ c ∈ ([0, 1] : List Nat),
      pairIsSynch ((getProtocolTable PROTOCOL_GROUP_ID.NORMAL_LEVEL_PROTOCOLS).1.getD c default)
        (getProtocolTable PROTOCOL_GROUP_ID.NORMAL_LEVEL_PROTOCOLS).2
        ⟨350, PULSE_LEVEL.HI⟩ ⟨1050, PULSE_LEVEL.LO⟩ = false) ∧
    (analyzePulsePairFn ⟨⟨[0, 1], 0⟩, PROTOCOL_GROUP_ID.NORMAL_LEVEL_PROTOCOLS⟩
      ⟨350, PULSE_LEVEL.HI⟩ ⟨1050, PULSE_LEVEL.LO⟩).1 = PULSE_TYPE.DATA_LOGICAL_0 ∧
    (analyzePulsePairFn ⟨⟨[0, 1], 0⟩, PROTOCOL_GROUP_ID.NORMAL_LEVEL_PROTOCOLS⟩
      ⟨350, PULSE_LEVEL.HI⟩ ⟨1050, PULSE_LEVEL.LO⟩).2.stack.mData = [1] := by
  refine ⟨by decide, ?_, ?_⟩
  · have h := (analyzePulsePair_iteration ⟨⟨[0, 1], 0⟩, PROTOCOL_GROUP_ID.NORMAL_LEVEL_PROTOCOLS⟩
      ⟨350, PULSE_LEVEL.HI⟩ ⟨1050, PULSE_LEVEL.LO⟩).2 (by decide)
    rw [h.1]
    decide
  · have h := (analyzePulsePair_iteration ⟨⟨[0, 1], 0⟩, PROTOCOL_GROUP_ID.NORMAL_LEVEL_PROTOCOLS⟩
      ⟨350, PULSE_LEVEL.HI⟩ ⟨1050, PULSE_LEVEL.LO⟩).2 (by decide)
    rw [h.2]
    decide

/-- A full scan over entries whose sync-A lower bound all exceed the pulse-A
duration selects nothing (normal group). -/
theorem fullScanNormalSpec_nil (d0 d1 : Nat) :
    ∀ (i : Nat) (l : List Protocol),
    (∀ p ∈ l, d0 < p.synchronizationPulsePair.durationHighLevelPulse.lowerBound) →
    fullScanNormalSpec d0 d1 i l = [] := by
  intro i l
  induction l generalizing i with
  | nil => intro _; rfl
  | cons p rest ih =>
    intro h
    have hp := h p (List.mem_cons_self p rest)
    simp only [fullScanNormalSpec]
    rw [if_neg (by omega)]
    exact ih (i + 1) (fun q hq => h q (List.mem_cons_of_mem p hq))

/-- A full scan over entries whose sync-A lower bound all exceed the pulse-A
duration selects nothing (inverse group, relaxed sync-A condition). -/
theorem fullScanInverseRelaxed_nil (d0 d1 : Nat) :
    ∀ (i : Nat) (l : List Protocol),
    (∀ p ∈ l, d0 < p.synchronizationPulsePair.durationLowLevelPulse.lowerBound) →
    fullScanInverseRelaxed d0 d1 i l = [] := by
  intro i l
  induction l generalizing i with
  | nil => intro _; rfl
  | cons p rest ih =>
    intro h
    have hp := h p (List.mem_cons_self p rest)
    simp only [fullScanInverseRelaxed]
    rw [if_neg (by omega)]
    exact ih (i + 1) (fun q hq => h q (List.mem_cons_of_mem p hq))

/-- Claim C5, counterexample: on the shipped inverse-level table (which is
sorted ascending by the sync-A lower bound) the collector's early-exit scan
with pulse durations a = 400, b = 8000 pushes index 0 (protocol 13, whose
sync-A half-open range is [216, 324) and hence does NOT contain 400), while
the half-open full scan the claim describes pushes nothing. The collector
enforces no sync-A upper bound for the inverse group. -/
theorem collectInverseScan_not_halfopen_fullscan :
    sortedBySynchALow inverseLevelProtocolsTable ∧
    collectInverseScan 400 8000 0 inverseLevelProtocolsTable = [0] ∧
    fullScanInverseSpec 400 8000 0 inverseLevelProtocolsTable = [] ∧
    collectInverseScan 400 8000 0 inverseLevelProtocolsTable ≠
      fullScanInverseSpec 400 8000 0 inverseLevelProtocolsTable := by
  refine ⟨by decide, by decide, by decide, by decide⟩

/-- Claim C5, amended: provided the group's table is sorted ascending by the
sync pulse-A lower bound, the normal-level collector's early-exit scan
pushes exactly the indices, in the same order, of the full scan that tests
both the sync-A and sync-B ranges half-open (as the claim states); the
inverse-level collector's early-exit scan pushes exactly the indices of the
full scan in which pulse A is only required to reach the sync-A lower bound
(no upper-bound check: the first sync pulse of an inverse protocol may be
longer) and pulse B is tested half-open against sync B. -/
theorem collector_scan_equivalence (table : List Protocol) (d0 d1 : Nat) :
    (sortedBySynchAHigh table →
      ∀ i, collectNormalScan d0 d1 i table = fullScanNormalSpec d0 d1 i table) ∧
    (sortedBySynchALow table →
      ∀ i, collectInverseScan d0 d1 i table = fullScanInverseRelaxed d0 d1 i table) := by
  constructor
  · intro hsorted
    induction table with
    | nil => intro i; rfl
    | cons p rest ih =>
      rcases (List.pairwise_cons.mp hsorted) with ⟨hle, hrest⟩
      intro i
      simp only [collectNormalScan, fullScanNormalSpec]
      by_cases hexit : d0 < p.synchronizationPulsePair.durationHighLevelPulse.lowerBound
      · rw [if_pos hexit, if_neg (by omega)]
        exact (fullScanNormalSpec_nil d0 d1 (i + 1) rest
          (fun q hq => by have := hle q hq; omega)).symm
      · rw [if_neg hexit]
        have hrec := ih hrest (i + 1)
        by_cases hcond : d0 < p.synchronizationPulsePair.durationHighLevelPulse.upperBound ∧
            d1 ≥ p.synchronizationPulsePair.durationLowLevelPulse.lowerBound ∧
            d1 < p.synchronizationPulsePair.durationLowLevelPulse.upperBound
        · rw [if_pos hcond, if_pos (by omega), hrec]
        · rw [if_neg hcond, if_neg (by omega), hrec]
  · intro hsorted
    induction table with
    | nil => intro i; rfl
    | cons p rest ih =>
      rcases (List.pairwise_cons.mp hsorted) with ⟨hle, hrest⟩
      intro i
      simp only [collectInverseScan, fullScanInverseRelaxed]
      by_cases hexit : d0 < p.synchronizationPulsePair.durationLowLevelPulse.lowerBound
      · rw [if_pos hexit, if_neg (by omega)]
        exact (fullScanInverseRelaxed_nil d0 d1 (i + 1) rest
          (fun q hq => by have := hle q hq; omega)).symm
      · rw [if_neg hexit]
        have hrec := ih hrest (i + 1)
        by_cases hcond : d1 ≥ p.synchronizationPulsePair.durationHighLevelPulse.lowerBound ∧
            d1 < p.synchronizationPulsePair.durationHighLevelPulse.upperBound
        · rw [if_pos hcond, if_pos (by omega), hrec]
        · rw [if_neg hcond, if_neg (by omega), hrec]

/-- Witness for the amended claim C5 on the shipped tables: with pulse pair
(300, 9000) the normal collector equals the half-open full scan (both push
indices 0 and 1), and with pulse pair (400, 8000) the inverse collector
equals the relaxed full scan (both push index 0). -/
theorem collector_scan_equivalence_witness :
    sortedBySynchAHigh normalLevelProtocolsTable ∧
    sortedBySynchALow inverseLevelProtocolsTable ∧
    collectNormalScan 300 9000 0 normalLevelProtocolsTable =
      fullScanNormalSpec 300 9000 0 normalLevelProtocolsTable ∧
    collectInverseScan 400 8000 0 inverseLevelProtocolsTable =
      fullScanInverseRelaxed 400 8000 0 inverseLevelProtocolsTable :=
  ⟨by decide, by decide,
   (collector_scan_equivalence normalLevelProtocolsTable 300 9000).1 (by decide) 0,
   (collector_scan_equivalence inverseLevelProtocolsTable 400 8000).2 (by decide) 0⟩

/-- In the `SYNC_STATE` the available flag is down. -/
theorem avail_false_of_sync (rcv : Receiver) (h : rcv.state = STATE.SYNC_STATE) :
    rcv.mMessageAvailable = false := by
  unfold Receiver.state at h
  split_ifs at h
  simp_all

/-- In the `DATA_STATE` the available flag is down. -/
theorem avail_false_of_data (rcv : Receiver) (h : rcv.state = STATE.DATA_STATE) :
    rcv.mMessageAvailable = false := by
  unfold Receiver.state at h
  split_ifs at h
  simp_all

/-- In the `AVAILABLE_STATE` the available flag is up. -/
theorem avail_true_of_available (rcv : Receiver) (h : rcv.state = STATE.AVAILABLE_STATE) :
    rcv.mMessageAvailable = true := by
  unfold Receiver.state at h
  split_ifs at h
  simp_all

/-- When `analyzePulsePair` reports a synch pair, the updated candidate set
is non-empty: the matching candidate survives. -/
theorem analyzePulsePairFn_sych_nonempty (pc : ProtocolCandidates) (f s : Pulse)
    (h : (analyzePulsePairFn pc f s).1 = PULSE_TYPE.SYCH_PULSE) :
    (analyzePulsePairFn pc f s).2.stack.mData ≠ [] := by
  simp only [analyzePulsePairFn] at h ⊢
  have hne := analyzeRev_sych_nonempty (getProtocolTable pc.mProtocolGroupId).1
    (getProtocolTable pc.mProtocolGroupId).2 f s pc.stack.mData.reverse h
  simpa using hne

/-- A receiver whose available flag is down satisfies the claim C2
invariant vacuously. -/
theorem receiverInv_of_avail_false (s : Receiver) (h : s.mMessageAvailable = false) :
    ReceiverInv s := by
  intro ha
  rw [h] at ha
  cases ha

/-- One `handleInterrupt` body step preserves the claim C2 invariant. -/
theorem inv_body (rcv : Receiver) (lvl : Int) (t : Nat) (h : ReceiverInv rcv) :
    ReceiverInv (rcv.handleInterruptBody lvl t) := by
  have h1 : ReceiverInv (rcv.pushPulse
      ((t + (UINT32_MOD - rcv.mMicrosecLastInterruptTime % UINT32_MOD)) % UINT32_MOD) lvl) := h
  simp only [Receiver.handleInterruptBody]
  revert h1
  generalize rcv.pushPulse
    ((t + (UINT32_MOD - rcv.mMicrosecLastInterruptTime % UINT32_MOD)) % UINT32_MOD) lvl = rcv1
  intro h1
  split
  case h_1 hst =>
    have hav := avail_false_of_sync _ hst
    split
    · exact receiverInv_of_avail_false _ hav
    · exact receiverInv_of_avail_false _ hav
  case h_2 hst =>
    have hav := avail_false_of_data _ hst
    split
    · -- a complete pulse pair: analyze it
      split
      next hunk => exact receiverInv_of_avail_false _ hav
      next hunk =>
        split
        next hsych =>
          split
          next hbits =>
            -- enough bits: the packet is published
            intro _
            exact ⟨hbits, List.length_pos.mpr (analyzePulsePairFn_sych_nonempty _ _ _ hsych)⟩
          next hbits => exact receiverInv_of_avail_false _ hav
        next hsych => exact receiverInv_of_avail_false _ hav
    · -- pulse pair not yet complete
      exact receiverInv_of_avail_false _ hav
  case h_3 hst =>
    exact h1

/-- One `handleInterrupt` call preserves the claim C2 invariant. -/
theorem inv_step (rcv : Receiver) (lvl : Int) (t : Nat) (h : ReceiverInv rcv) :
    ReceiverInv (rcv.handleInterrupt lvl t) := by
  unfold Receiver.handleInterrupt
  by_cases hs : rcv.mSuspended
  · simp only [hs]
    intro ha
    simp at ha
    exact h ha
  · simp only [hs]
    have hb := inv_body rcv lvl t h
    intro ha
    simp at ha
    exact hb ha

/-- The freshly constructed receiver satisfies the claim C2 invariant. -/
theorem inv_initial : ReceiverInv Receiver.initial := by
  intro ha
  simp [Receiver.initial] at ha

/-- A reset receiver satisfies the claim C2 invariant. -/
theorem inv_reset (rcv : Receiver) : ReceiverInv rcv.reset := by
  intro ha
  simp [Receiver.reset] at ha

/-- The claim C2 invariant is preserved by any interrupt sequence. -/
theorem inv_foldl (evs : List (Int × Nat)) :
    ∀ s0 : Receiver, ReceiverInv s0 →
    ReceiverInv (evs.foldl (fun s e => s.handleInterrupt e.1 e.2) s0) := by
  induction evs with
  | nil => intro s0 h; exact h
  | cons e rest ih =>
    intro s0 h
    exact ih _ (inv_step s0 e.1 e.2 h)

/-- Claim C2: starting from a freshly constructed or reset receiver, after
any sequence of `handleInterrupt` calls, whenever the available flag is true
the accumulated message packet holds at least `MIN_MSG_PACKET_BITS` bits and
the protocol-candidate set is non-empty. -/
theorem receiver_available_invariant (s0 : Receiver)
    (h0 : s0 = Receiver.initial ∨ ∃ s : Receiver, s0 = Receiver.reset s) (evs : List (Int × Nat)) :
    (evs.foldl (fun s e => s.handleInterrupt e.1 e.2) s0).mMessageAvailable = true →
    MIN_MSG_PACKET_BITS ≤
      (evs.foldl (fun s e => s.handleInterrupt e.1 e.2) s0).mReceivedMessagePacket.mData.length ∧
    1 ≤ (evs.foldl (fun s e => s.handleInterrupt e.1 e.2) s0).mProtocolCandidates.stack.mData.length := by
  have hinv : ReceiverInv s0 := by
    rcases h0 with h0 | ⟨s, h0⟩
    · rw [h0]; exact inv_initial
    · rw [h0]; exact inv_reset s
  exact inv_foldl evs s0 hinv

/-- Witness for claim C2: an ideal protocol-1 transmission (sync, the six
bits 010011, trailing sync) fed edge by edge into a fresh receiver ends
with the available flag set; the theorem then yields the bit-count and
candidate-count bounds, and indeed the final state holds 6 bits and one
candidate protocol. -/
theorem receiver_available_invariant_witness :
    (Receiver.initial = Receiver.initial ∨ ∃ s : Receiver, Receiver.initial = Receiver.reset s) ∧
    (([(1, 1000), (0, 1350), (1, 12200), (0, 12550), (1, 13600), (0, 14650), (1, 15000),
       (0, 15350), (1, 16400), (0, 16750), (1, 17800), (0, 18850), (1, 19200), (0, 20250),
       (1, 20600), (0, 20950), (1, 31800)] : List (Int × Nat)).foldl
        (fun s e => s.handleInterrupt e.1 e.2) Receiver.initial).mMessageAvailable = true ∧
    MIN_MSG_PACKET_BITS ≤
      (([(1, 1000), (0, 1350), (1, 12200), (0, 12550), (1, 13600), (0, 14650), (1, 15000),
         (0, 15350), (1, 16400), (0, 16750), (1, 17800), (0, 18850), (1, 19200), (0, 20250),
         (1, 20600), (0, 20950), (1, 31800)] : List (Int × Nat)).foldl
          (fun s e => s.handleInterrupt e.1 e.2) Receiver.initial).mReceivedMessagePacket.mData.length ∧
    1 ≤ (([(1, 1000), (0, 1350), (1, 12200), (0, 12550), (1, 13600), (0, 14650), (1, 15000),
           (0, 15350), (1, 16400), (0, 16750), (1, 17800), (0, 18850), (1, 19200), (0, 20250),
           (1, 20600), (0, 20950), (1, 31800)] : List (Int × Nat)).foldl
            (fun s e => s.handleInterrupt e.1 e.2) Receiver.initial).mProtocolCandidates.stack.mData.length := by
  refine ⟨Or.inl rfl, by decide, ?_⟩
  exact receiver_available_invariant Receiver.initial (Or.inl rfl) _ (by decide)

end RcSwitch
